import Mathlib

/-!
Verification of the confidential token transfer flows in
`src/confidential` of the SolTransferConfidential repository.

The source functions (`transfer_tokens`, `withdraw_tokens`,
`deposite_token_to_confidential`, `apply_pending`,
`create_confidential_token_acc`) are straight-line async Rust: a fixed
sequence of fallible ledger calls chained with the `?` operator.  We embed
each function as the ordered list of ledger-visible steps it performs
(`List Event`), and give the `?`-propagation semantics as `runSteps`,
which executes steps in order against a failure oracle and stops at the
first failing step.  Accounts and keys are identified by `Nat` tags.

The balance semantics of the ledger-side confidential-transfer
instructions (deposit, apply-pending) are not part of this repository;
they are modelled from the spec where a claim needs them, with ciphertexts
tracked by their plaintext values (the encryption is additively
homomorphic, so ledger-side ciphertext algebra mirrors `Nat` arithmetic).
-/

namespace SolConf

/-- The three zero-knowledge proof kinds used by the confidential
transfer flows. -/
inductive ProofKind
  | equality
  | ciphertextValidity
  | range
  deriving DecidableEq

/-- One ledger-visible (or fallible local) step of a source function.
Each constructor mirrors one call in the source; `Nat` fields carry the
account tags and amounts the source passes at that call site. -/
inductive Event
  | getAccountInfo (acct : Nat)
  | getExtension (acct : Nat)
  | generateTransferProofData (amount : Nat)
  | generateWithdrawProofData (amount : Nat)
  | createContextAccount (kind : ProofKind) (split : Bool)
  | executeTransfer (src dst : Nat) (amount : Nat)
  | executeWithdraw (acct : Nat) (amount : Nat) (decimals : Nat)
  | executeDeposit (acct : Nat) (amount : Nat) (decimals : Nat)
  | applyPendingIx (acct : Nat)
  | closeContextAccount (kind : ProofKind)
  | createAccountIx (payer acct rent space : Nat)
  | initializeAccountIx (acct mint : Nat)
  | configureAccountIx (acct mint decryptableInit maxPendingCounter : Nat)
  | enableConfidentialCreditsIx (acct : Nat)
  deriving DecidableEq

/-- `amount * 10u64.pow(6)`: the decimal scaling the source applies to a
user-supplied amount, with u64 wrapping semantics. -/
def scale (amount : Nat) : Nat := (amount * 10 ^ 6) % 2 ^ 64

/-- Steps of `apply_pending` (src/confidential/apply_pending_balance.rs):
a single `confidential_transfer_apply_pending_balance` ledger call.
(`handle_token_response` only prints and always returns `Ok`, so it
contributes no fallible step.) -/
def apply_pending (acct : Nat) : List Event :=
  [.applyPendingIx acct]

/-- Steps of `transfer_tokens`
(src/confidential/confidential_transfer_tokens.rs), in source order:
read the sender account and its extension, generate the transfer proof
data for the scaled amount, create the three proof context state
accounts (equality and ciphertext-validity bundled with verification,
range with the create/verify split), execute the transfer, apply the
recipient's pending balance, then close the three context accounts. -/
def transfer_tokens (amount sender recipient : Nat) : List Event :=
  [.getAccountInfo sender,
   .getExtension sender,
   .generateTransferProofData (scale amount),
   .createContextAccount .equality false,
   .createContextAccount .ciphertextValidity false,
   .createContextAccount .range true,
   .executeTransfer sender recipient (scale amount)]
  ++ apply_pending recipient
  ++ [.closeContextAccount .equality,
      .closeContextAccount .ciphertextValidity,
      .closeContextAccount .range]

/-- Steps of `withdraw_tokens`
(src/confidential/confidential_withdraw_tokens.rs), in source order:
read the account and its extension, generate the withdraw proof data for
the scaled amount, create the equality and range proof context accounts,
execute the withdrawal (scaled amount, 6 decimals), then close the two
context accounts. -/
def withdraw_tokens (amount acct : Nat) : List Event :=
  [.getAccountInfo acct,
   .getExtension acct,
   .generateWithdrawProofData (scale amount),
   .createContextAccount .equality false,
   .createContextAccount .range true,
   .executeWithdraw acct (scale amount) 6,
   .closeContextAccount .equality,
   .closeContextAccount .range]

/-- Steps of `deposite_token_to_confidential`
(src/confidential/confidential_deposit_token.rs): deposit the scaled
amount (6 decimals) into the pending balance, then call `apply_pending`
on the same account. -/
def deposite_token_to_confidential (acct : Nat) (amount : Nat) : List Event :=
  [.executeDeposit acct (scale amount) 6]
  ++ apply_pending acct

/-- The `?`-propagation semantics of the source functions: execute steps
in order; each step is emitted, and if the oracle says it fails the run
stops there with result `false` (the Rust `?` returns the error to the
caller immediately). -/
def runSteps (fail : Event → Bool) : List Event → List Event × Bool
  | [] => ([], true)
  | e :: rest =>
    if fail e then ([e], false)
    else ((e :: (runSteps fail rest).1), (runSteps fail rest).2)

/-- The all-success oracle: every ledger call succeeds. -/
def noFail : Event → Bool := fun _ => false

/-- Failure oracle that fails exactly the transfer instruction. -/
def failTransferExec : Event → Bool := fun e =>
  match e with
  | .executeTransfer _ _ _ => true
  | _ => false

/-- Failure oracle that fails exactly the withdraw instruction. -/
def failWithdrawExec : Event → Bool := fun e =>
  match e with
  | .executeWithdraw _ _ _ => true
  | _ => false

/-- The proof context accounts created along a step list, with their
create/verify split flags, in order. -/
def createdContexts : List Event → List (ProofKind × Bool)
  | [] => []
  | .createContextAccount k s :: rest => (k, s) :: createdContexts rest
  | _ :: rest => createdContexts rest

/-- The amounts handed to proof generation along a step list, in order. -/
def proofGenAmounts : List Event → List Nat
  | [] => []
  | .generateTransferProofData a :: rest => a :: proofGenAmounts rest
  | .generateWithdrawProofData a :: rest => a :: proofGenAmounts rest
  | _ :: rest => proofGenAmounts rest

/-- The amounts handed to the amount-bearing ledger instructions
(transfer, withdraw, deposit) along a step list, in order. -/
def instructionAmounts : List Event → List Nat
  | [] => []
  | .executeTransfer _ _ a :: rest => a :: instructionAmounts rest
  | .executeWithdraw _ a _ :: rest => a :: instructionAmounts rest
  | .executeDeposit _ a _ :: rest => a :: instructionAmounts rest
  | _ :: rest => instructionAmounts rest

/-- Plaintext view of one confidential account's ledger balances.
Ciphertexts are tracked by the plaintext values they encrypt, which the
ledger combines homomorphically. -/
structure AccountState where
  pending : Nat
  available : Nat
  deriving DecidableEq

/-- Modelled from the spec: the ledger's confidential deposit instruction
(`confidential_transfer_deposit`, external to src/) adds the deposited
amount to the account's pending balance by homomorphic addition and does
not touch the available balance. -/
def depositIx (s : AccountState) (amt : Nat) : AccountState :=
  { s with pending := s.pending + amt }

/-- Modelled from the spec: the ledger's apply-pending instruction
(`confidential_transfer_apply_pending_balance`, external to src/)
algebraically folds pending into available and resets pending to the
encryption of zero, never altering available except by addition. -/
def applyPendingIxEffect (s : AccountState) : AccountState :=
  { pending := 0, available := s.available + s.pending }

/-- Balance effect of the source function `apply_pending`: one
apply-pending instruction on the account. -/
def apply_pending_effect (s : AccountState) : AccountState :=
  applyPendingIxEffect s

/-- Balance effect of `deposite_token_to_confidential` on the depositing
account: the deposit instruction with the scaled amount, immediately
followed by `apply_pending` on the same account (step 2 of the source
function). -/
def deposite_token_to_confidential_effect (s : AccountState) (amount : Nat) :
    AccountState :=
  applyPendingIxEffect (depositIx s (scale amount))

/-- Modelled from the spec: `ElGamalKeypair::new_from_signer` (library
function, not in src/) derives the keypair deterministically from the
owner's signing key and the seed bytes; the derived key is represented
by exactly those derivation inputs. -/
structure ElGamalKeypairT where
  signerKey : Nat
  seed : Nat
  deriving DecidableEq

/-- Modelled from the spec: `AeKey::new_from_signer` (library function,
not in src/) derives the authenticated-encryption key deterministically
from the owner's signing key and the seed bytes. -/
structure AeKeyT where
  signerKey : Nat
  seed : Nat
  deriving DecidableEq

/-- Deterministic ElGamal key derivation, as called by the source with
the payer's signing key and the token account address as seed. -/
def ElGamalKeypairT.new_from_signer (signer seed : Nat) : ElGamalKeypairT :=
  ⟨signer, seed⟩

/-- Deterministic AE key derivation, as called by the source with the
payer's signing key and the token account address as seed. -/
def AeKeyT.new_from_signer (signer seed : Nat) : AeKeyT :=
  ⟨signer, seed⟩

/-- Modelled from the spec: authenticated symmetric encryption, with the
ciphertext tracked by the plaintext value it decrypts to (the decryptable
balance the source passes to `configure_account` is `aes_kp.encrypt(0)`). -/
def AeKeyT.encrypt (_k : AeKeyT) (v : Nat) : Nat := v

/-- Result of `create_confidential_token_acc`, mirroring the source
struct `ConfTokenAccountRes` (src/helper.rs). -/
structure ConfTokenAccountRes where
  token_account_kp : Nat
  user_elgamal_kp : ElGamalKeypairT
  user_aes_kp : AeKeyT
  deriving DecidableEq

/-- Embedding of `create_confidential_token_acc`
(src/confidential/confidential_token_account.rs): derives the ElGamal
and AE keys from the payer's signing key and the freshly generated token
account address, submits create-account, initialize-account and
configure-account (decryptable balance `aes.encrypt 0`, maximum pending
balance credit counter 65536) in one transaction, then enables
confidential credits, and returns the account keypair with its two keys.
`freshAddr` stands for the address of the `Keypair::new()` the source
generates; `rent` and `space` are the ledger-supplied rent and account
size. -/
def create_confidential_token_acc (payer mint freshAddr rent space : Nat) :
    List Event × ConfTokenAccountRes :=
  let elgamal_kp := ElGamalKeypairT.new_from_signer payer freshAddr
  let aes_kp := AeKeyT.new_from_signer payer freshAddr
  ([.createAccountIx payer freshAddr rent space,
    .initializeAccountIx freshAddr mint,
    .configureAccountIx freshAddr mint (aes_kp.encrypt 0) 65536,
    .enableConfidentialCreditsIx freshAddr],
   ⟨freshAddr, elgamal_kp, aes_kp⟩)

/-- The decryptable-balance initializers passed to configure-account
instructions along a step list, in order. -/
def configureInits : List Event → List Nat
  | [] => []
  | .configureAccountIx _ _ d _ :: rest => d :: configureInits rest
  | _ :: rest => configureInits rest

/-- The maximum pending balance credit counters passed to
configure-account instructions along a step list, in order. -/
def configureMaxCounters : List Event → List Nat
  | [] => []
  | .configureAccountIx _ _ _ m :: rest => m :: configureMaxCounters rest
  | _ :: rest => configureMaxCounters rest

/-- The trace of a run is always an initial segment of the step list:
`?`-propagation never reorders or skips steps. -/
theorem runSteps_eq_take (fail : Event → Bool) :
    ∀ l : List Event, ∃ k : Nat, (runSteps fail l).1 = l.take k := by
  intro l
  induction l with
  | nil => exact ⟨0, rfl⟩
  | cons e rest ih =>
    by_cases h : fail e = true
    · exact ⟨1, by simp [runSteps, h]⟩
    · obtain ⟨k, hk⟩ := ih
      exact ⟨k + 1, by simp [runSteps, h, hk]⟩

/-- If a step `b` fails, no step strictly after the first occurrence of
`b` is ever reached: every event of the trace lies in the prefix up to
and including `b`. -/
theorem runSteps_stops_at_fail (fail : Event → Bool) (b : Event)
    (hb : fail b = true) :
    ∀ (l₁ l₂ : List Event) (c : Event),
      c ∈ (runSteps fail (l₁ ++ b :: l₂)).1 → c ∈ l₁ ++ [b] := by
  intro l₁
  induction l₁ with
  | nil =>
    intro l₂ c hc
    simp only [List.nil_append, runSteps, hb, if_true] at hc
    simpa using hc
  | cons e rest ih =>
    intro l₂ c hc
    by_cases h : fail e = true
    · simp only [List.cons_append, runSteps, h, if_true] at hc
      simp only [List.mem_singleton] at hc
      subst hc
      simp
    · simp only [List.cons_append, runSteps, h, if_false, List.mem_cons] at hc
      cases hc with
      | head =>
        simp
      | tail _ h2 =>
        have := ih l₂ c h2
        simp only [List.cons_append, List.mem_cons]
        exact Or.inr this

/-- C1 counterexample: at amount 1 with a failure oracle that fails
exactly the transfer instruction, the run fails after all three proof
context accounts were created, yet no closure of any context account is
attempted before the error is surfaced: the claim that closure is still
attempted on failure is false of the code. -/
theorem claim_C1_counterexample :
    (runSteps failTransferExec (transfer_tokens 1 0 1)).2 = false ∧
    Event.createContextAccount ProofKind.equality false ∈
      (runSteps failTransferExec (transfer_tokens 1 0 1)).1 ∧
    Event.createContextAccount ProofKind.ciphertextValidity false ∈
      (runSteps failTransferExec (transfer_tokens 1 0 1)).1 ∧
    Event.createContextAccount ProofKind.range true ∈
      (runSteps failTransferExec (transfer_tokens 1 0 1)).1 ∧
    Event.executeTransfer 0 1 (scale 1) ∈
      (runSteps failTransferExec (transfer_tokens 1 0 1)).1 ∧
    Event.closeContextAccount ProofKind.equality ∉
      (runSteps failTransferExec (transfer_tokens 1 0 1)).1 ∧
    Event.closeContextAccount ProofKind.ciphertextValidity ∉
      (runSteps failTransferExec (transfer_tokens 1 0 1)).1 ∧
    Event.closeContextAccount ProofKind.range ∉
      (runSteps failTransferExec (transfer_tokens 1 0 1)).1 := by
  decide

/-- C1 (amended): if the consuming instruction of a transfer or withdraw
fails, the error propagates immediately through the `?` operator and no
closure of any created context account is attempted; context accounts
are closed only on the success path. -/
theorem claim_C1_amended_no_cleanup_on_failure
    (a s r acct : Nat) (failT failW : Event → Bool) :
    (failT (Event.executeTransfer s r (scale a)) = true →
      ∀ k : ProofKind,
        Event.closeContextAccount k ∉ (runSteps failT (transfer_tokens a s r)).1) ∧
    (failW (Event.executeWithdraw acct (scale a) 6) = true →
      ∀ k : ProofKind,
        Event.closeContextAccount k ∉ (runSteps failW (withdraw_tokens a acct)).1) := by
  constructor
  · intro h k hmem
    have hdec : transfer_tokens a s r =
        [Event.getAccountInfo s, Event.getExtension s,
         Event.generateTransferProofData (scale a),
         Event.createContextAccount ProofKind.equality false,
         Event.createContextAccount ProofKind.ciphertextValidity false,
         Event.createContextAccount ProofKind.range true] ++
          Event.executeTransfer s r (scale a) ::
            (apply_pending r ++
             [Event.closeContextAccount ProofKind.equality,
              Event.closeContextAccount ProofKind.ciphertextValidity,
              Event.closeContextAccount ProofKind.range]) := rfl
    rw [hdec] at hmem
    have hc := runSteps_stops_at_fail failT _ h _ _ _ hmem
    simp at hc
  · intro h k hmem
    have hdec : withdraw_tokens a acct =
        [Event.getAccountInfo acct, Event.getExtension acct,
         Event.generateWithdrawProofData (scale a),
         Event.createContextAccount ProofKind.equality false,
         Event.createContextAccount ProofKind.range true] ++
          Event.executeWithdraw acct (scale a) 6 ::
            [Event.closeContextAccount ProofKind.equality,
             Event.closeContextAccount ProofKind.range] := rfl
    rw [hdec] at hmem
    have hc := runSteps_stops_at_fail failW _ h _ _ _ hmem
    simp at hc

/-- Witness for the amended C1 theorem at amount 1 with the oracles that
fail exactly the consuming instruction of each operation. -/
theorem claim_C1_witness :
    Event.closeContextAccount ProofKind.equality ∉
      (runSteps failTransferExec (transfer_tokens 1 0 1)).1 ∧
    Event.closeContextAccount ProofKind.range ∉
      (runSteps failWithdrawExec (withdraw_tokens 1 0)).1 :=
  ⟨(claim_C1_amended_no_cleanup_on_failure 1 0 1 0 failTransferExec failWithdrawExec).1
      (by decide) ProofKind.equality,
   (claim_C1_amended_no_cleanup_on_failure 1 0 1 0 failTransferExec failWithdrawExec).2
      (by decide) ProofKind.range⟩

/-- C2: on a full run, a transfer creates exactly the equality,
ciphertext-validity and range proof context accounts, a withdraw exactly
the equality and range ones, and deposit and apply-pending create none. -/
theorem claim_C2_context_accounts_created
    (a s r a2 acct a3 acct2 : Nat) :
    createdContexts (runSteps noFail (transfer_tokens a s r)).1 =
      [(ProofKind.equality, false), (ProofKind.ciphertextValidity, false),
       (ProofKind.range, true)] ∧
    createdContexts (runSteps noFail (withdraw_tokens a2 acct)).1 =
      [(ProofKind.equality, false), (ProofKind.range, true)] ∧
    createdContexts (runSteps noFail (deposite_token_to_confidential acct2 a3)).1 = [] ∧
    createdContexts (runSteps noFail (apply_pending acct2)).1 = [] :=
  ⟨rfl, rfl, rfl, rfl⟩

/-- C3: across every context-account creation performed by the four
operations, the create/verify split flag is true exactly for the range
proof; equality and ciphertext-validity contexts are created with the
flag false. -/
theorem claim_C3_split_iff_range
    (a s r a2 acct a3 acct2 : Nat) (p : ProofKind × Bool)
    (hp : p ∈ createdContexts (transfer_tokens a s r) ++
            createdContexts (withdraw_tokens a2 acct) ++
            createdContexts (deposite_token_to_confidential acct2 a3) ++
            createdContexts (apply_pending acct2)) :
    p.2 = true ↔ p.1 = ProofKind.range := by
  have hl : createdContexts (transfer_tokens a s r) ++
      createdContexts (withdraw_tokens a2 acct) ++
      createdContexts (deposite_token_to_confidential acct2 a3) ++
      createdContexts (apply_pending acct2) =
      [(ProofKind.equality, false), (ProofKind.ciphertextValidity, false),
       (ProofKind.range, true), (ProofKind.equality, false),
       (ProofKind.range, true)] := rfl
  rw [hl] at hp
  fin_cases hp <;> simp

/-- Witness for C3 at amount 1 and the range-proof creation of a
transfer. -/
theorem claim_C3_witness :
    ((ProofKind.range, true) : ProofKind × Bool).2 = true ↔
      ((ProofKind.range, true) : ProofKind × Bool).1 = ProofKind.range :=
  claim_C3_split_iff_range 1 0 1 1 0 1 0 (ProofKind.range, true) (by decide)

/-- C4: a successful transfer performs its steps in exactly this order:
the three context accounts are created, then the transfer instruction
executes, then the recipient's pending balance is applied, then the
three context accounts are closed; and under any failure oracle, if the
transfer instruction appears in the trace at all, then all three
context-account creations appear strictly before it. -/
theorem claim_C4_transfer_ordering (a s r : Nat) (fail : Event → Bool) :
    (runSteps noFail (transfer_tokens a s r)).1 =
      [Event.getAccountInfo s, Event.getExtension s,
       Event.generateTransferProofData (scale a),
       Event.createContextAccount ProofKind.equality false,
       Event.createContextAccount ProofKind.ciphertextValidity false,
       Event.createContextAccount ProofKind.range true,
       Event.executeTransfer s r (scale a),
       Event.applyPendingIx r,
       Event.closeContextAccount ProofKind.equality,
       Event.closeContextAccount ProofKind.ciphertextValidity,
       Event.closeContextAccount ProofKind.range] ∧
    (Event.executeTransfer s r (scale a) ∈ (runSteps fail (transfer_tokens a s r)).1 →
      ∃ pre post, (runSteps fail (transfer_tokens a s r)).1 =
          pre ++ Event.executeTransfer s r (scale a) :: post ∧
        Event.createContextAccount ProofKind.equality false ∈ pre ∧
        Event.createContextAccount ProofKind.ciphertextValidity false ∈ pre ∧
        Event.createContextAccount ProofKind.range true ∈ pre) := by
  constructor
  · rfl
  · intro hmem
    obtain ⟨k, hk⟩ := runSteps_eq_take fail (transfer_tokens a s r)
    rw [hk] at hmem ⊢
    by_cases h7 : 7 ≤ k
    · obtain ⟨m, rfl⟩ : ∃ m, k = m + 7 := ⟨k - 7, by omega⟩
      refine ⟨[Event.getAccountInfo s, Event.getExtension s,
        Event.generateTransferProofData (scale a),
        Event.createContextAccount ProofKind.equality false,
        Event.createContextAccount ProofKind.ciphertextValidity false,
        Event.createContextAccount ProofKind.range true],
        (apply_pending r ++
          [Event.closeContextAccount ProofKind.equality,
           Event.closeContextAccount ProofKind.ciphertextValidity,
           Event.closeContextAccount ProofKind.range]).take m,
        rfl, by simp, by simp, by simp⟩
    · exfalso
      have hk6 : k ≤ 6 := by omega
      interval_cases k <;>
        simp [transfer_tokens, apply_pending, List.take_succ_cons] at hmem

/-- Witness for C4 at amount 1 under the all-success oracle. -/
theorem claim_C4_witness :
    ∃ pre post, (runSteps noFail (transfer_tokens 1 0 1)).1 =
        pre ++ Event.executeTransfer 0 1 (scale 1) :: post ∧
      Event.createContextAccount ProofKind.equality false ∈ pre ∧
      Event.createContextAccount ProofKind.ciphertextValidity false ∈ pre ∧
      Event.createContextAccount ProofKind.range true ∈ pre :=
  (claim_C4_transfer_ordering 1 0 1 noFail).2 (by decide)

/-- C5: whenever the scaled amount fits in a u64, the amount handed to
proof generation and to each amount-bearing ledger instruction of the
deposit, transfer and withdraw flows is exactly the user amount times
10^6, scaled once in the lifecycle functions before any proof code sees
it. -/
theorem claim_C5_decimal_scaling
    (a s r acct dacct : Nat) (h : a * 10 ^ 6 < 2 ^ 64) :
    proofGenAmounts (transfer_tokens a s r) = [a * 10 ^ 6] ∧
    instructionAmounts (transfer_tokens a s r) = [a * 10 ^ 6] ∧
    proofGenAmounts (withdraw_tokens a acct) = [a * 10 ^ 6] ∧
    instructionAmounts (withdraw_tokens a acct) = [a * 10 ^ 6] ∧
    proofGenAmounts (deposite_token_to_confidential dacct a) = [] ∧
    instructionAmounts (deposite_token_to_confidential dacct a) = [a * 10 ^ 6] := by
  have hs : scale a = a * 10 ^ 6 := Nat.mod_eq_of_lt h
  refine ⟨?_, ?_, ?_, ?_, ?_, ?_⟩ <;>
    simp [transfer_tokens, withdraw_tokens, deposite_token_to_confidential,
      apply_pending, proofGenAmounts, instructionAmounts, hs]

/-- Witness for C5 at amount 1. -/
theorem claim_C5_witness :
    proofGenAmounts (transfer_tokens 1 0 1) = [1 * 10 ^ 6] ∧
    instructionAmounts (transfer_tokens 1 0 1) = [1 * 10 ^ 6] ∧
    proofGenAmounts (withdraw_tokens 1 0) = [1 * 10 ^ 6] ∧
    instructionAmounts (withdraw_tokens 1 0) = [1 * 10 ^ 6] ∧
    proofGenAmounts (deposite_token_to_confidential 0 1) = [] ∧
    instructionAmounts (deposite_token_to_confidential 0 1) = [1 * 10 ^ 6] :=
  claim_C5_decimal_scaling 1 0 1 0 0 (by norm_num)

/-- C6 counterexample: depositing 100 into an account whose balances are
both zero changes the available balance (the repository's deposit
operation applies the pending balance immediately after the deposit
instruction), so the claim that deposit leaves the available balance
unchanged is false of the code. -/
theorem claim_C6_counterexample :
    (deposite_token_to_confidential_effect (AccountState.mk 0 0) 100).available ≠
      (AccountState.mk 0 0).available := by
  decide

/-- C6 (amended): the deposit instruction itself adds the scaled amount
to pending only, requires no proof context accounts, and leaves
available unchanged; but the repository's deposit operation then
immediately applies the pending balance, so the operation as a whole
resets pending to zero and increases available by the prior pending
balance plus the deposited amount. -/
theorem claim_C6_amended_deposit_flow_effect
    (s : AccountState) (a acct : Nat) :
    (depositIx s (scale a)).pending = s.pending + scale a ∧
    (depositIx s (scale a)).available = s.available ∧
    createdContexts (deposite_token_to_confidential acct a) = [] ∧
    (deposite_token_to_confidential_effect s a).available =
      s.available + s.pending + scale a ∧
    (deposite_token_to_confidential_effect s a).pending = 0 := by
  refine ⟨rfl, rfl, rfl, ?_, rfl⟩
  simp [deposite_token_to_confidential_effect, applyPendingIxEffect, depositIx,
    Nat.add_assoc]

/-- C7: if an account's pending balance is the encryption of zero,
applying the pending balance twice leaves the available balance exactly
as it is after the first application. -/
theorem claim_C7_apply_pending_idempotent
    (s : AccountState) (_h : s.pending = 0) :
    (apply_pending_effect (apply_pending_effect s)).available =
      (apply_pending_effect s).available := by
  simp [apply_pending_effect, applyPendingIxEffect]

/-- Witness for C7 on an account with zero pending and available 7. -/
theorem claim_C7_witness :
    (apply_pending_effect (apply_pending_effect (AccountState.mk 0 7))).available =
      (apply_pending_effect (AccountState.mk 0 7)).available :=
  claim_C7_apply_pending_idempotent (AccountState.mk 0 7) rfl

/-- C8: the ElGamal keypair and AE key returned by
`create_confidential_token_acc` are exactly the deterministic derivation
from the payer's signing key and the token account address: they do not
depend on the mint, rent or account size, and two creations with the
same signer and account address yield identical keys.  Moreover the keys
are never transmitted: the complete list of instructions the routine
submits to the ledger is an explicit list whose every field is one of
the public inputs (payer, account address, mint, rent, space) or the
literals 0 (the AE encryption of zero, the only key-derived datum sent)
and 65536 — no instruction carries the derived ElGamal keypair or AE
key. -/
theorem claim_C8_deterministic_key_derivation
    (payer mint mint2 addr rent rent2 space space2 : Nat) :
    (create_confidential_token_acc payer mint addr rent space).2.user_elgamal_kp =
      ElGamalKeypairT.new_from_signer payer addr ∧
    (create_confidential_token_acc payer mint addr rent space).2.user_aes_kp =
      AeKeyT.new_from_signer payer addr ∧
    (create_confidential_token_acc payer mint addr rent space).2.user_elgamal_kp =
      (create_confidential_token_acc payer mint2 addr rent2 space2).2.user_elgamal_kp ∧
    (create_confidential_token_acc payer mint addr rent space).2.user_aes_kp =
      (create_confidential_token_acc payer mint2 addr rent2 space2).2.user_aes_kp ∧
    (create_confidential_token_acc payer mint addr rent space).1 =
      [Event.createAccountIx payer addr rent space,
       Event.initializeAccountIx addr mint,
       Event.configureAccountIx addr mint 0 65536,
       Event.enableConfidentialCreditsIx addr] :=
  ⟨rfl, rfl, rfl, rfl, rfl⟩

/-- C9: every confidential token account is configured with its
decryptable balance initialized to the AE encryption of zero, which in
the plaintext model is the value 0. -/
theorem claim_C9_initial_decryptable_zero
    (payer mint addr rent space : Nat) :
    configureInits (create_confidential_token_acc payer mint addr rent space).1 =
      [(AeKeyT.new_from_signer payer addr).encrypt 0] ∧
    (AeKeyT.new_from_signer payer addr).encrypt 0 = 0 :=
  ⟨rfl, rfl⟩

/-- C10: every confidential token account is configured with a maximum
pending balance credit counter of exactly 65536, and the
enable-confidential-credits instruction is part of the creation routine,
so credits are enabled before the account is returned to the caller. -/
theorem claim_C10_max_counter_and_credits_enabled
    (payer mint addr rent space : Nat) :
    configureMaxCounters
        (create_confidential_token_acc payer mint addr rent space).1 = [65536] ∧
    Event.enableConfidentialCreditsIx addr ∈
      (create_confidential_token_acc payer mint addr rent space).1 :=
  ⟨rfl, by simp [create_confidential_token_acc]⟩

end SolConf
